import Mathlib

/-!
Verification of the WhatsApp chatbot flow-execution engine
(`processMessage` / `executeNode` in the flow-executor service).

The engine is embedded shallowly: the Redis-backed session becomes an
explicit `Sess` record, outbound WhatsApp sends and HTTP calls become an
effect list, and the unbounded node-dispatch recursion of the source is
indexed by a fuel parameter (`ErrKind.fuelOut` marks executions that the
source would continue past any given step count).  A JavaScript exception
escaping `processMessage` (dereferencing an absent `messageText`) is marked
`ErrKind.typeError`; state written before the throw is kept, matching the
webhook handler's catch-all.  The external HTTP response of the `api` node
is abstracted (`apiResponseText`), since the remote server is outside the
program; everything up to and including issuing the request is modelled.
-/

/-- JavaScript truthiness of a possibly-absent string (`undefined`, `null`
and `""` are falsy). -/
def jsTruthy : Option String → Bool
  | some t => t ≠ ""
  | none => false

/-- JS `a || b` on possibly-absent strings. -/
def jsOrS (a b : Option String) : Option String :=
  if jsTruthy a then a else b

/-- JS `a || d` with a string literal default. -/
def jsOrD (a : Option String) (d : String) : String :=
  if jsTruthy a then a.getD d else d

/-- JS template interpolation of a possibly-absent string. -/
def jsShow : Option String → String
  | some t => t
  | none => "undefined"

/-- Collapse a possibly-absent string to `none` when falsy (the
`?.target || null` idiom). -/
def truthyOpt (a : Option String) : Option String :=
  if jsTruthy a then a else none

/-- JS `String.prototype.trim` over the character list (whitespace at both
ends removed). -/
def trimChars (cs : List Char) : List Char :=
  ((cs.dropWhile Char.isWhitespace).reverse.dropWhile Char.isWhitespace).reverse

/-- JS `String.prototype.trim`. -/
def jsTrim (s : String) : String := String.mk (trimChars s.data)

/-- JS `String.prototype.toLowerCase` (ASCII range). -/
def jsToLower (s : String) : String := String.mk (s.data.map Char.toLower)

/-- JS `String.prototype.split(",")` over the character list; the accumulator
holds the current piece reversed. -/
def splitCommaGo (acc : List Char) : List Char → List String
  | [] => [String.mk acc.reverse]
  | c :: rest =>
    if c == ',' then String.mk acc.reverse :: splitCommaGo [] rest
    else splitCommaGo (c :: acc) rest

/-- JS `s.split(",")`. -/
def splitComma (s : String) : List String := splitCommaGo [] s.data

/-- Replace each maximal whitespace run by one underscore, as the regex
replacement `replace(/\s+/g, "_")` does.  The boolean records whether the
previous character was whitespace. -/
def collapseWsGo : Bool → List Char → List Char
  | _, [] => []
  | prevWs, c :: rest =>
    if c.isWhitespace then
      (if prevWs then ([] : List Char) else ['_']) ++ collapseWsGo true rest
    else c :: collapseWsGo false rest

/-- `normalizeLabel` from the source: trim, lowercase, whitespace runs to
underscores. -/
def normalizeLabel (label : String) : String :=
  String.mk (collapseWsGo false (jsToLower (jsTrim label)).data)

/-! ### A small regular-expression engine for the question validators

The three validators of the question node are fixed JS regexes; they are
transcribed into a regex AST and decided with Brzozowski derivatives. -/

/-- Regular expressions over characters; `cls` is a character class. -/
inductive RE where
  | emp : RE
  | eps : RE
  | cls (p : Char → Bool) : RE
  | cat (a b : RE) : RE
  | alt (a b : RE) : RE
  | star (a : RE) : RE

/-- Whether a regex accepts the empty string. -/
def RE.nullable : RE → Bool
  | .emp => false
  | .eps => true
  | .cls _ => false
  | .cat a b => a.nullable && b.nullable
  | .alt a b => a.nullable || b.nullable
  | .star _ => true

/-- Brzozowski derivative of a regex by one character. -/
def RE.deriv : RE → Char → RE
  | .emp, _ => .emp
  | .eps, _ => .emp
  | .cls p, c => if p c then .eps else .emp
  | .cat a b, c =>
    if a.nullable then .alt (.cat (a.deriv c) b) (b.deriv c)
    else .cat (a.deriv c) b
  | .alt a b, c => .alt (a.deriv c) (b.deriv c)
  | .star a, c => .cat (a.deriv c) (.star a)

/-- Anchored regex match (`^...$`), by folding derivatives. -/
def reMatch (r : RE) (s : String) : Bool :=
  (s.data.foldl RE.deriv r).nullable

/-- Single-character regex. -/
def reChar (c : Char) : RE := .cls (fun x => x == c)

/-- Literal string regex. -/
def reStr (s : String) : RE :=
  s.data.foldr (fun c r => .cat (reChar c) r) .eps

/-- `r+`. -/
def rePlus (r : RE) : RE := .cat r (.star r)

/-- `r?`. -/
def reOpt (r : RE) : RE := .alt .eps r

/-- `r{n}` (n-fold concatenation). -/
def reRep (r : RE) : Nat → RE
  | 0 => .eps
  | n + 1 => .cat r (reRep r n)

/-- The class `[^\s@]`. -/
def nonWsAt : RE := .cls (fun c => !(c.isWhitespace || c == '@'))

/-- JS `\d`. -/
def digitC : RE := .cls Char.isDigit

/-- JS `\w` = `[A-Za-z0-9_]`. -/
def wordChar (c : Char) : Bool := c.isAlphanum || c == '_'

/-- The email regex `/^[^\s@]+@[^\s@]+\.[^\s@]+$/`. -/
def emailRE : RE :=
  .cat (rePlus nonWsAt)
    (.cat (reChar '@')
      (.cat (rePlus nonWsAt) (.cat (reChar '.') (rePlus nonWsAt))))

/-- The phone regex `/^\+?\d{10,15}$/` (10 required digits then up to 5
optional ones, equivalent as a language to the counted repetition). -/
def phoneRE : RE :=
  .cat (reOpt (reChar '+')) (.cat (reRep digitC 10) (reRep (reOpt digitC) 5))

/-- The class `[\w.-]`. -/
def dotDashWord : RE := .cls (fun c => wordChar c || c == '.' || c == '-')

/-- The tail class of the URL regex. -/
def urlTailChar (c : Char) : Bool :=
  wordChar c ||
    [ '-', '.', '_', '~', ':', '/', '?', '#', '[', ']', '@', '!', '$',
      '&', Char.ofNat 39, '(', ')', '*', '+', ',', ';', '='].contains c

/-- The URL regex
`/^(https?:\/\/)?[\w.-]+(\.[\w\.-]+)+[\w\-\._~:\/?#\[\]@!\$&'\(\)\*\+,;=.]+$/`. -/
def urlRE : RE :=
  .cat (reOpt (.cat (reStr "http") (.cat (reOpt (reChar 's')) (reStr "://"))))
    (.cat (rePlus dotDashWord)
      (.cat (rePlus (.cat (reChar '.') (rePlus dotDashWord)))
        (rePlus (.cls urlTailChar))))

/-- The question node's validator dispatch (`email` / `phonenumber` / `url`,
anything else passes). -/
def validateAnswer (validationType : Option String) (input : String) : Bool :=
  if validationType == some "email" then reMatch emailRE input
  else if validationType == some "phonenumber" then reMatch phoneRE input
  else if validationType == some "url" then reMatch urlRE input
  else true

/-! ### Data model -/

/-- A flow-graph node; the `data.properties` bag is flattened into typed
fields (absent properties are `none`).  `numberOfRepeats` is kept as the
parsed numeric configuration. -/
structure Node where
  id : String
  type : String
  message : Option String := none
  keywords : Option String := none
  buttons : List String := []
  question : Option String := none
  propertyName : Option String := none
  validationType : Option String := none
  numberOfRepeats : Option Nat := none
  quickReply : Option String := none
  waitForUserReply : Bool := false
  method : Option String := none
  url : Option String := none
deriving Repr, DecidableEq

/-- A labeled edge of the flow graph. -/
structure Edge where
  source : String
  target : String
  label : Option String := none
deriving Repr, DecidableEq

/-- The per-project flow graph (`fileTree`). -/
structure FileTree where
  nodes : List Node
  edges : List Edge
deriving Repr, DecidableEq

/-- The Redis-backed session of one `(project, sender)` pair: one field per
key the source reads or writes under `flow-state:<sender>:<project>`.
`vars` holds the variable bindings `<project>_<sender>_<name>`. -/
structure Sess where
  position : Option String
  awaiting : Option (String × List String)
  invalidCount : Option Nat
  asked : Bool
  retries : Option Nat
  vars : List (String × String)
deriving Repr, DecidableEq

/-- A session with no stored keys. -/
def Sess.fresh : Sess := ⟨none, none, none, false, none, []⟩

/-- One inbound webhook event, as destructured by `processMessage`. -/
structure Event where
  messageText : Option String
  buttonReplyId : Option String := none
deriving Repr, DecidableEq

/-- Observable side effects of one execution. -/
inductive Effect where
  | sendMsg (text : String) : Effect
  | sendBtns (text : String) (buttons : List (String × String)) : Effect
  | httpRequest (url : String) : Effect
deriving Repr, DecidableEq

/-- How an execution stopped abnormally: `typeError` is a JS `TypeError`
escaping (absent `messageText` dereferenced); `fuelOut` marks that the
source's unbounded recursion would keep dispatching past the given fuel. -/
inductive ErrKind where
  | typeError : ErrKind
  | fuelOut : ErrKind
deriving Repr, DecidableEq

/-- Result of processing: the session state left in the store, the effects
emitted so far, and whether the execution escaped abnormally. -/
structure Outcome where
  sess : Sess
  out : List Effect
  err : Option ErrKind
deriving Repr, DecidableEq

/-- Prepend effects that happened before a sub-execution. -/
def Outcome.addOut (pre : List Effect) (o : Outcome) : Outcome :=
  { o with out := pre ++ o.out }

/-! ### Engine helper functions (one per source function or inline loop) -/

/-- `findNextNode` from the source: with a truthy condition label, the first
edge from the node carrying that label; otherwise the first edge from the
node.  A falsy target collapses to `none` (`?.target || null`). -/
def findNextNode (sourceNodeId : String) (edges : List Edge)
    (conditionLabel : Option String) : Option String :=
  if jsTruthy conditionLabel then
    truthyOpt ((edges.find? (fun e =>
      e.source == sourceNodeId && e.label == conditionLabel)).map Edge.target)
  else
    truthyOpt ((edges.find? (fun e => e.source == sourceNodeId)).map Edge.target)

/-- The button matcher used both for the awaited node and for the global
scan: a label matches if the normalized input equals the normalized label or
the synthesized id `btn_<index+1>_<normalizedLabel>`. -/
def findMatchedLabel (buttons : List String) (normalizedInput : String) :
    Option String :=
  (buttons.enum.find? (fun p =>
    normalizedInput == normalizeLabel p.2 ||
    normalizedInput == "btn_" ++ toString (p.1 + 1) ++ "_" ++ normalizeLabel p.2)).map
    Prod.snd

/-- The source's global button check: scan the node list in order for a
`buttons` node whose button list matches the input and whose matched label
has a truthy labeled edge; yield that edge's target. -/
def globalScan (edges : List Edge) (normalizedInput : String) :
    List Node → Option String
  | [] => none
  | n :: rest =>
    if n.type == "buttons" then
      match findMatchedLabel n.buttons normalizedInput with
      | some lbl =>
        match findNextNode n.id edges (some (normalizeLabel lbl)) with
        | some t => some t
        | none => globalScan edges normalizedInput rest
      | none => globalScan edges normalizedInput rest
    else globalScan edges normalizedInput rest

/-- JS `String.prototype.includes`: the needle occurs contiguously in the
haystack (the empty needle always does). -/
def listIsInfix (needle : List Char) : List Char → Bool
  | [] => needle.isEmpty
  | c :: rest => needle.isPrefixOf (c :: rest) || listIsInfix needle rest

/-- Read a variable binding (`redisClient.get` on the variable key). -/
def lookupVar (vars : List (String × String)) (name : String) : Option String :=
  (vars.find? (fun p => p.1 == name)).map Prod.snd

/-- JS `String.prototype.replace` with a string pattern: first occurrence
only. -/
def replaceFirstAux (rep pat : List Char) : List Char → List Char
  | [] => []
  | c :: rest =>
    if pat.isPrefixOf (c :: rest) then rep ++ (c :: rest).drop pat.length
    else c :: replaceFirstAux rep pat rest

/-- JS `s.replace(pat, rep)` for a string pattern. -/
def replaceFirst (s pat rep : String) : String :=
  String.mk (replaceFirstAux rep.data pat.data s.data)

/-- Scan for the closing `}}` of a placeholder, as the non-greedy `(.*?)}}`
does; `.` does not cross a newline. -/
def takeVar : List Char → Option (String × List Char)
  | '\x7d' :: '\x7d' :: r => some ("", r)
  | c :: r =>
    if c == '\n' then none
    else (takeVar r).map (fun p => (String.mk (c :: p.1.data), p.2))
  | [] => none

/-- All placeholder names of `/{{(.*?)}}/g` over the URL, in match order
(fuel is the input length; each step consumes at least one character). -/
def extractGo : Nat → List Char → List String
  | 0, _ => []
  | _ + 1, [] => []
  | n + 1, c :: rest =>
    if c == '\x7b' && rest.head? == some '\x7b' then
      match takeVar rest.tail with
      | some (name, r) => name :: extractGo n r
      | none => extractGo n rest
    else extractGo n rest

/-- The `url.matchAll(/{{(.*?)}}/g)` capture groups. -/
def extractVars (s : String) : List String :=
  extractGo (s.data.length + 1) s.data

/-- The literal placeholder text `{{name}}`. -/
def placeholderText (name : String) : String :=
  "\x7b\x7b" ++ name ++ "\x7d\x7d"

/-- The api node's substitution loop: resolve each placeholder in order,
failing (the thrown `Missing value` error) at the first falsy binding. -/
def substVarsGo (vars : List (String × String)) :
    List String → String → Option String
  | [], u => some u
  | vn :: rest, u =>
    match truthyOpt (lookupVar vars vn) with
    | none => none
    | some v => substVarsGo vars rest (replaceFirst u (placeholderText vn) v)

/-- Compile the api URL, or fail on a missing binding. -/
def substVars (vars : List (String × String)) (url : String) : Option String :=
  substVarsGo vars (extractVars url) url

/-- Placeholder for the external HTTP response (outside the program). -/
def apiResponseText : String := "API Response"

/-- The `quickReply` send that precedes every node dispatch. -/
def quickReplyOut (node : Node) : List Effect :=
  if jsTruthy node.quickReply then [Effect.sendMsg (node.quickReply.getD "")]
  else []

/-- Shared bottom of `executeNode`: persist the next position and either
suspend (`waitForUserReply`) or keep dispatching; with no truthy next node,
delete the position. -/
def advanceWith (exec : String → Sess → Outcome) (s : Sess) (node : Node)
    (outAcc : List Effect) : Option String → Outcome
  | some t =>
    if node.waitForUserReply then ⟨{ s with position := some t }, outAcc, none⟩
    else Outcome.addOut outAcc (exec t { s with position := some t })
  | none => ⟨{ s with position := none }, outAcc, none⟩

/-- One dispatch of `executeNode`, parametric in the recursive call. -/
def execBody (exec : String → Sess → Outcome) (ft : FileTree) (ev : Event)
    (nodeId : String) (s : Sess) : Outcome :=
  match ft.nodes.find? (fun n => n.id == nodeId) with
  | none => ⟨{ s with position := none }, [], none⟩
  | some node =>
    let qr := quickReplyOut node
    if node.type == "start" then
      advanceWith exec s node qr (findNextNode node.id ft.edges none)
    else if node.type == "message" then
      advanceWith exec s node
        (qr ++ [Effect.sendMsg (jsOrD node.message "Default message")])
        (findNextNode node.id ft.edges none)
    else if node.type == "keywordMatch" then
      let keywords := (splitComma (jsOrD node.keywords "")).map
        (fun k => jsToLower (jsTrim k))
      if keywords.isEmpty then
        advanceWith exec s node qr (findNextNode node.id ft.edges (some "false"))
      else
        match ev.messageText with
        | none => ⟨s, qr, some ErrKind.typeError⟩
        | some mt =>
          let hit := keywords.any (fun k =>
            listIsInfix k.data (jsToLower mt).data)
          advanceWith exec s node qr
            (findNextNode node.id ft.edges
              (some (if hit then "true" else "false")))
    else if node.type == "buttons" then
      let fmtd := node.buttons.enum.map (fun p =>
        ("btn_" ++ toString (p.1 + 1) ++ "_" ++ normalizeLabel p.2, p.2))
      ⟨{ s with awaiting := some (node.id, node.buttons.map (fun b => jsToLower (jsTrim b))),
                invalidCount := none },
       qr ++ [Effect.sendBtns (jsOrD node.message "Choose an option:") fmtd], none⟩
    else if node.type == "question" then
      if s.asked then ⟨s, qr, none⟩
      else ⟨{ s with asked := true },
            qr ++ [Effect.sendMsg (jsOrD node.question "Please reply:")], none⟩
    else if node.type == "api" then
      if !(jsTruthy node.method && jsTruthy node.url) then
        advanceWith exec s node qr none
      else
        match substVars s.vars (node.url.getD "") with
        | none =>
          advanceWith exec s node
            (qr ++ [Effect.sendMsg "Failed to fetch data. Please try again later."])
            (findNextNode node.id ft.edges none)
        | some compiledUrl =>
          advanceWith exec s node
            (qr ++ [Effect.httpRequest compiledUrl,
                    Effect.sendMsg apiResponseText])
            (findNextNode node.id ft.edges none)
    else if node.type == "end" then
      ⟨{ s with position := none }, qr, none⟩
    else
      ⟨{ s with position := none },
       qr ++ [Effect.sendMsg "Something went wrong. Please try again later."], none⟩

/-- `executeNode` from the source, indexed by fuel: each node dispatch
consumes one unit, and the source's unbounded synchronous continuation is
the recursive call. -/
def executeNode : Nat → FileTree → Event → String → Sess → Outcome
  | 0, _, _, _, s => ⟨s, [], some ErrKind.fuelOut⟩
  | fuel + 1, ft, ev, nodeId, s => execBody (executeNode fuel ft ev) ft ev nodeId s

/-- The question node's answer handling inside `processMessage` (validate,
retry or store-and-advance), reached when the current node is a `question`
whose `asked` flag is set. -/
def answerStage (fuel : Nat) (ft : FileTree) (ev : Event) (s : Sess)
    (node : Node) : Outcome :=
  match ev.messageText with
  | none => ⟨s, [], some ErrKind.typeError⟩
  | some mt =>
    let numberOfRepeats := node.numberOfRepeats.getD 3
    let retryCount := s.retries.getD 0
    let input := jsTrim mt
    if !validateAnswer node.validationType input then
      if numberOfRepeats ≤ retryCount + 1 then
        ⟨{ s with position := none, asked := false, retries := none },
         [Effect.sendMsg "❌ Too many invalid attempts. Ending flow."], none⟩
      else
        ⟨{ s with retries := some (retryCount + 1) },
         [Effect.sendMsg ("❌ Please provide a valid "
            ++ jsShow node.validationType ++ ".")], none⟩
    else
      let s1 := if jsTruthy node.propertyName then
          { s with vars := (node.propertyName.getD "", input) :: s.vars }
        else s
      match findNextNode node.id ft.edges none with
      | some t =>
        executeNode fuel ft ev t
          { s1 with position := some t, asked := false, retries := none }
      | none => ⟨{ s1 with position := none }, [], none⟩

/-- Resolution of the current node inside `processMessage`: missing node
deletes the session; a question whose `asked` flag is set goes to the
answer stage; anything else is dispatched. -/
def dispatchCurrent (fuel : Nat) (ft : FileTree) (ev : Event) (s : Sess)
    (currentNodeId : String) : Outcome :=
  match ft.nodes.find? (fun n => n.id == currentNodeId) with
  | none => ⟨{ s with position := none }, [], none⟩
  | some node =>
    if node.type == "question" && s.asked then answerStage fuel ft ev s node
    else executeNode fuel ft ev currentNodeId s

/-- Section 3 of `processMessage`: continue from the stored position, or
start at the first `start` node; with no start node, log and return. -/
def continueStage (fuel : Nat) (ft : FileTree) (ev : Event) (s : Sess) : Outcome :=
  match truthyOpt s.position with
  | some cid => dispatchCurrent fuel ft ev s cid
  | none =>
    match ft.nodes.find? (fun n => n.type == "start") with
    | none => ⟨s, [], none⟩
    | some startNode => dispatchCurrent fuel ft ev s startNode.id

/-- The invalid-button-reply branch of `processMessage`: bump the counter;
at 3 notify, clear the three session keys and run the `end` node if the
graph has one; below 3 persist the counter and send the retry prompt. -/
def invalidButtonStage (fuel : Nat) (ft : FileTree) (ev : Event) (s : Sess) :
    Outcome :=
  let invalidCount := s.invalidCount.getD 0 + 1
  if 3 ≤ invalidCount then
    let s1 := { s with position := none, awaiting := none, invalidCount := none }
    let notice := Effect.sendMsg ("You\x27ve entered too many invalid responses (3/3).\nEnding this session. Please try again later if needed.")
    match ft.nodes.find? (fun n => n.type == "end") with
    | some endNode => Outcome.addOut [notice] (executeNode fuel ft ev endNode.id s1)
    | none => ⟨s1, [notice], none⟩
  else
    ⟨{ s with invalidCount := some invalidCount },
     [Effect.sendMsg ("Invalid response. Please choose one of the buttons. ("
        ++ toString invalidCount ++ "/3 attempts used)")], none⟩

/-- The jump taken when the global button scan matches: persist the target,
clear the awaiting marker and the invalid counter, and dispatch. -/
def globalJump (fuel : Nat) (ft : FileTree) (ev : Event) (s : Sess)
    (t : String) : Outcome :=
  executeNode fuel ft ev t
    { s with position := some t, awaiting := none, invalidCount := none }

/-- `(buttonReplyId || messageText || "").trim().toLowerCase()`. -/
def cleanedInput (ev : Event) : String :=
  jsToLower (jsTrim ((jsOrS ev.buttonReplyId (jsOrS ev.messageText (some ""))).getD ""))

/-- The canonical token `processMessage` matches buttons against. -/
def normInput (ev : Event) : String := normalizeLabel (cleanedInput ev)

/-- Sections 2 and 3 of `processMessage` (what runs when no awaiting branch
returned): the global button scan, then continuation. -/
def postAwaiting (fuel : Nat) (ft : FileTree) (ev : Event) (s : Sess) : Outcome :=
  match globalScan ft.edges (normInput ev) ft.nodes with
  | some t => globalJump fuel ft ev s t
  | none => continueStage fuel ft ev s

/-- `processMessage` from the source (the flow graph is a parameter; the
database fetch and its null check live outside the model). -/
def processMessage (fuel : Nat) (ft : FileTree) (ev : Event) (s : Sess) : Outcome :=
  match s.awaiting with
  | none => postAwaiting fuel ft ev s
  | some (nodeId, buttons) =>
    match findMatchedLabel buttons (normInput ev) with
    | none => invalidButtonStage fuel ft ev s
    | some matchedLabel =>
      match findNextNode nodeId ft.edges (some (normalizeLabel matchedLabel)) with
      | some t =>
        executeNode fuel ft ev t
          { s with position := some t, awaiting := none, invalidCount := none }
      | none => postAwaiting fuel ft ev s

/-- Session states reachable from a fresh session by processed events. -/
inductive Reach (ft : FileTree) : Sess → Prop where
  | init : Reach ft Sess.fresh
  | step {s : Sess} (ev : Event) (fuel : Nat) :
      Reach ft s → Reach ft (processMessage fuel ft ev s).sess

/-! ### The counter invariant (claim C4) -/

/-- Counter relation between a state and a successor: `executeNode` never
writes either counter, it can only keep or clear them. -/
def CP (s s' : Sess) : Prop :=
  (s'.invalidCount = s.invalidCount ∨ s'.invalidCount = none) ∧
  (s'.retries = s.retries ∨ s'.retries = none)

/-- The bounded-counter invariant: a stored button-invalid count is below 3,
and a stored retry count is below the configured `numberOfRepeats` of the
question node that wrote it (some question node of the graph). -/
def InvC4 (ft : FileTree) (s : Sess) : Prop :=
  (∀ n, s.invalidCount = some n → n < 3) ∧
  (∀ r, s.retries = some r →
    ∃ q ∈ ft.nodes, q.type = "question" ∧ r < q.numberOfRepeats.getD 3)

/-! ### Concrete fixtures used by the claim theorems -/

/-- A question node collecting an email address. -/
def qNodeW : Node :=
  { id := "q1", type := "question", question := some "Email?",
    validationType := some "email", propertyName := some "email" }

/-- Graph: a pending email question plus an unrelated buttons node `b1`
whose label `Help` leads to message `m1`. -/
def ftC1 : FileTree :=
  ⟨[{ id := "q1", type := "question", question := some "Your email?",
      validationType := some "email" },
    { id := "b1", type := "buttons", buttons := ["Help"] },
    { id := "m1", type := "message", message := some "FromButtons" }],
   [{ source := "b1", target := "m1", label := some "help" }]⟩

/-- Session with the question pending (`asked` set) and nothing awaited. -/
def sC1 : Sess := ⟨some "q1", none, none, true, none, []⟩

/-- Graph: start leads to an email question; buttons node `b1` jumps to a
second buttons node `b2` on label `support`. -/
def ftC3 : FileTree :=
  ⟨[{ id := "s0", type := "start" },
    { id := "q1", type := "question", question := some "Your email?",
      validationType := some "email" },
    { id := "b1", type := "buttons", buttons := ["support"] },
    { id := "b2", type := "buttons", buttons := ["x"] }],
   [{ source := "s0", target := "q1" },
    { source := "b1", target := "b2", label := some "support" }]⟩

/-- A two-node cycle of auto-advancing message nodes behind the start node. -/
def ftCyc : FileTree :=
  ⟨[{ id := "s0", type := "start" },
    { id := "m1", type := "message", message := some "A" },
    { id := "m2", type := "message", message := some "B" }],
   [{ source := "s0", target := "m1" },
    { source := "m1", target := "m2" },
    { source := "m2", target := "m1" }]⟩

/-- A plain text event. -/
def evHi : Event := ⟨some "hi", none⟩

/-- Graph: the email question `q1` advancing to a thank-you message. -/
def ftQ : FileTree :=
  ⟨[qNodeW, { id := "m9", type := "message", message := some "Thanks" }],
   [{ source := "q1", target := "m9" }]⟩

/-- Session at `q1` with the question already asked. -/
def sQ0 : Sess := ⟨some "q1", none, none, true, none, []⟩

/-- Same session after one failed validation. -/
def sQ1 : Sess := ⟨some "q1", none, none, true, some 1, []⟩

/-- Graph: a buttons node with labels yes/no and an `end` node. -/
def ftB : FileTree :=
  ⟨[{ id := "b1", type := "buttons", buttons := ["yes", "no"] },
    { id := "e1", type := "end" }],
   [{ source := "b1", target := "e1", label := some "yes" }]⟩

/-- Session awaiting the yes/no reply with no invalid attempts yet. -/
def sB0 : Sess := ⟨some "b1", some ("b1", ["yes", "no"]), none, false, none, []⟩

/-- The terminal node used by the end-node fixtures. -/
def endNodeW : Node := { id := "e1", type := "end" }

/-- Graph containing only an `end` node. -/
def ftEnd : FileTree := ⟨[endNodeW], []⟩

/-- A session with every field populated, about to hit the end node. -/
def sFull : Sess := ⟨some "e1", some ("b", ["x"]), some 2, true, some 1, []⟩

/-- Graph with two `start` nodes; only the first has an outgoing edge. -/
def ft2S : FileTree :=
  ⟨[{ id := "s1", type := "start" },
    { id := "s2", type := "start" },
    { id := "mA", type := "message", message := some "Hi M1" }],
   [{ source := "s1", target := "mA" }]⟩

/-- Graph with no `start` node at all. -/
def ft0S : FileTree := ⟨[{ id := "mA", type := "message", message := some "x" }], []⟩

/-- An api node whose URL carries the `orderId` placeholder. -/
def apiNodeW : Node :=
  { id := "a1", type := "api", method := some "GET",
    url := some "https://x/\x7b\x7borderId\x7d\x7d" }

/-- Graph: the api node advancing to a message node. -/
def ftApi : FileTree :=
  ⟨[apiNodeW, { id := "m2", type := "message", message := some "After" }],
   [{ source := "a1", target := "m2" }]⟩

/-- Graph with a single keywordMatch node. -/
def ftKw : FileTree :=
  ⟨[{ id := "k1", type := "keywordMatch", keywords := some "hello" }], []⟩

/-- A button-only event: `messageText` absent, `buttonReplyId` present. -/
def evBtnOnly : Event := ⟨none, some "zzz"⟩

/-! ### Helper lemmas -/

/-- Prepending earlier effects does not change how an execution ended. -/
theorem Outcome.addOut_err (pre : List Effect) (o : Outcome) :
    (Outcome.addOut pre o).err = o.err := rfl

/-- Prepending earlier effects does not change the final session. -/
theorem Outcome.addOut_sess (pre : List Effect) (o : Outcome) :
    (Outcome.addOut pre o).sess = o.sess := rfl

/-- A falsy value collapses to `none`. -/
theorem truthyOpt_eq_none {a : Option String} (h : jsTruthy a = false) :
    truthyOpt a = none := by
  simp [truthyOpt, h]

/-- The api substitution loop fails whenever some listed placeholder has a
falsy binding. -/
theorem substVarsGo_missing (vars : List (String × String)) (vn : String)
    (hvn : jsTruthy (lookupVar vars vn) = false) :
    ∀ (l : List String) (u : String), vn ∈ l → substVarsGo vars l u = none := by
  intro l
  induction l with
  | nil => intro u h; cases h
  | cons hd tl ih =>
    intro u hmem
    unfold substVarsGo
    rcases List.mem_cons.mp hmem with heq | htl
    · subst heq
      rw [truthyOpt_eq_none hvn]
    · cases htopt : truthyOpt (lookupVar vars hd) with
      | none => rfl
      | some v => exact ih _ htl

/-- `CP` is reflexive. -/
theorem CP_refl (s : Sess) : CP s s := ⟨Or.inl rfl, Or.inl rfl⟩

/-- `CP` composes. -/
theorem CP_trans {s1 s2 s3 : Sess} (h12 : CP s1 s2) (h23 : CP s2 s3) :
    CP s1 s3 := by
  constructor
  · rcases h23.1 with h | h
    · rw [h]; exact h12.1
    · exact Or.inr h
  · rcases h23.2 with h | h
    · rw [h]; exact h12.2
    · exact Or.inr h

/-- The shared advance step keeps or clears the counters, provided the
continuation does. -/
theorem advanceWith_CP (exec : String → Sess → Outcome)
    (h : ∀ t s1, CP s1 (exec t s1).sess) (s : Sess) (node : Node)
    (outAcc : List Effect) (next : Option String) :
    CP s (advanceWith exec s node outAcc next).sess := by
  cases next with
  | none => exact ⟨Or.inl rfl, Or.inl rfl⟩
  | some t =>
    have e : advanceWith exec s node outAcc (some t) =
        if node.waitForUserReply then
          ⟨{ s with position := some t }, outAcc, none⟩
        else Outcome.addOut outAcc (exec t { s with position := some t }) := rfl
    rw [e]
    by_cases hw : node.waitForUserReply = true
    · rw [if_pos hw]
      exact ⟨Or.inl rfl, Or.inl rfl⟩
    · rw [if_neg hw, Outcome.addOut_sess]
      exact CP_trans (⟨Or.inl rfl, Or.inl rfl⟩ : CP s { s with position := some t })
        (h t _)

/-- One node dispatch keeps or clears the counters, provided the recursive
continuation does: no `executeNode` branch ever increments either counter. -/
theorem execBody_CP (exec : String → Sess → Outcome)
    (h : ∀ t s1, CP s1 (exec t s1).sess) (ft : FileTree) (ev : Event)
    (nodeId : String) (s : Sess) :
    CP s (execBody exec ft ev nodeId s).sess := by
  unfold execBody
  cases hf : ft.nodes.find? (fun n => n.id == nodeId) with
  | none => exact ⟨Or.inl rfl, Or.inl rfl⟩
  | some node =>
    simp only
    repeat' split
    all_goals
      first
        | exact ⟨Or.inl rfl, Or.inl rfl⟩
        | exact ⟨Or.inr rfl, Or.inl rfl⟩
        | exact advanceWith_CP exec h s node _ _

/-- `executeNode` keeps or clears the counters at every fuel. -/
theorem executeNode_CP (fuel : Nat) :
    ∀ (ft : FileTree) (ev : Event) (nodeId : String) (s : Sess),
      CP s (executeNode fuel ft ev nodeId s).sess := by
  induction fuel with
  | zero => intro ft ev nodeId s; exact ⟨Or.inl rfl, Or.inl rfl⟩
  | succ n ih =>
    intro ft ev nodeId s
    exact execBody_CP (executeNode n ft ev) (fun t s1 => ih ft ev t s1) ft ev nodeId s

/-- The invariant survives keep-or-clear successors. -/
theorem InvC4_of_CP {ft : FileTree} {s s' : Sess} (h : InvC4 ft s)
    (hcp : CP s s') : InvC4 ft s' := by
  constructor
  · intro n hn
    rcases hcp.1 with he | he
    · exact h.1 n (he ▸ hn)
    · rw [he] at hn; cases hn
  · intro r hr
    rcases hcp.2 with he | he
    · exact h.2 r (he ▸ hr)
    · rw [he] at hr; cases hr

/-- The answer stage preserves the invariant: a persisted retry count is
strictly below the current question's configured repeat maximum. -/
theorem answerStage_InvC4 (fuel : Nat) (ft : FileTree) (ev : Event) (s : Sess)
    (node : Node) (hmem : node ∈ ft.nodes) (htype : node.type = "question")
    (h : InvC4 ft s) : InvC4 ft (answerStage fuel ft ev s node).sess := by
  unfold answerStage
  cases ev.messageText with
  | none => exact h
  | some mt =>
    simp only
    split
    · split
      · exact ⟨fun n hn => h.1 n hn, fun r hr => by cases hr⟩
      · rename_i hnotle
        refine ⟨fun n hn => h.1 n hn, fun r hr => ?_⟩
        cases hr
        exact ⟨node, hmem, htype, by omega⟩
    · have hic : (if jsTruthy node.propertyName then
          { s with vars := (node.propertyName.getD "", jsTrim mt) :: s.vars }
        else s).invalidCount = s.invalidCount := by split <;> rfl
      have hrt : (if jsTruthy node.propertyName then
          { s with vars := (node.propertyName.getD "", jsTrim mt) :: s.vars }
        else s).retries = s.retries := by split <;> rfl
      split
      · refine InvC4_of_CP ?_ (executeNode_CP fuel ft ev _ _)
        exact ⟨fun n hn => h.1 n (hic ▸ hn), fun r hr => by cases hr⟩
      · exact ⟨fun n hn => h.1 n (hic ▸ hn), fun r hr => h.2 r (hrt ▸ hr)⟩

/-- Current-node resolution preserves the invariant. -/
theorem dispatchCurrent_InvC4 (fuel : Nat) (ft : FileTree) (ev : Event)
    (s : Sess) (cid : String) (h : InvC4 ft s) :
    InvC4 ft (dispatchCurrent fuel ft ev s cid).sess := by
  unfold dispatchCurrent
  cases hf : ft.nodes.find? (fun n => n.id == cid) with
  | none => exact ⟨fun n hn => h.1 n hn, fun r hr => h.2 r hr⟩
  | some node =>
    simp only
    split
    · rename_i hcond
      exact answerStage_InvC4 fuel ft ev s node
        (List.mem_of_find?_eq_some hf)
        (eq_of_beq (Bool.and_eq_true _ _ |>.mp hcond).1) h
    · exact InvC4_of_CP h (executeNode_CP fuel ft ev cid s)

/-- Continuation (section 3) preserves the invariant. -/
theorem continueStage_InvC4 (fuel : Nat) (ft : FileTree) (ev : Event)
    (s : Sess) (h : InvC4 ft s) :
    InvC4 ft (continueStage fuel ft ev s).sess := by
  unfold continueStage
  cases truthyOpt s.position with
  | some cid => exact dispatchCurrent_InvC4 fuel ft ev s cid h
  | none =>
    cases ft.nodes.find? (fun n => n.type == "start") with
    | none => exact h
    | some startNode => exact dispatchCurrent_InvC4 fuel ft ev s startNode.id h

/-- The invalid-button branch preserves the invariant: the counter is only
persisted below 3. -/
theorem invalidButtonStage_InvC4 (fuel : Nat) (ft : FileTree) (ev : Event)
    (s : Sess) (h : InvC4 ft s) :
    InvC4 ft (invalidButtonStage fuel ft ev s).sess := by
  unfold invalidButtonStage
  simp only
  split
  · have h1 : InvC4 ft ⟨none, none, none, s.asked, s.retries, s.vars⟩ :=
      ⟨fun n hn => (nomatch hn), fun r hr => h.2 r hr⟩
    cases ft.nodes.find? (fun n => n.type == "end") with
    | none => exact h1
    | some endNode =>
      rw [Outcome.addOut_sess]
      exact InvC4_of_CP h1 (executeNode_CP fuel ft ev endNode.id _)
  · rename_i hnotle
    refine ⟨fun n hn => ?_, fun r hr => h.2 r hr⟩
    injection hn with h2
    omega

/-- Sections 2 and 3 preserve the invariant. -/
theorem postAwaiting_InvC4 (fuel : Nat) (ft : FileTree) (ev : Event)
    (s : Sess) (h : InvC4 ft s) :
    InvC4 ft (postAwaiting fuel ft ev s).sess := by
  unfold postAwaiting
  cases globalScan ft.edges (normInput ev) ft.nodes with
  | some t =>
    refine InvC4_of_CP ?_ (executeNode_CP fuel ft ev t _)
    exact ⟨fun n hn => (nomatch hn), fun r hr => h.2 r hr⟩
  | none => exact continueStage_InvC4 fuel ft ev s h

/-- `processMessage` preserves the invariant. -/
theorem processMessage_InvC4 (fuel : Nat) (ft : FileTree) (ev : Event)
    (s : Sess) (h : InvC4 ft s) :
    InvC4 ft (processMessage fuel ft ev s).sess := by
  unfold processMessage
  cases s.awaiting with
  | none => exact postAwaiting_InvC4 fuel ft ev s h
  | some p =>
    obtain ⟨nodeId, buttons⟩ := p
    simp only
    cases findMatchedLabel buttons (normInput ev) with
    | none => exact invalidButtonStage_InvC4 fuel ft ev s h
    | some matchedLabel =>
      simp only
      cases findNextNode nodeId ft.edges (some (normalizeLabel matchedLabel)) with
      | some t =>
        refine InvC4_of_CP ?_ (executeNode_CP fuel ft ev t _)
        exact ⟨fun n hn => (nomatch hn), fun r hr => h.2 r hr⟩
      | none => exact postAwaiting_InvC4 fuel ft ev s h

/-! ### Claim theorems -/

/-- C4: in every session state reachable from a fresh session, a stored
button-invalid counter is strictly below 3, and a stored retry counter is
strictly below the configured `numberOfRepeats` (default 3) of the question
node that persisted it: whenever an increment would reach the maximum the
session is terminated instead of the counter being persisted at or above
it. -/
theorem c4_counters_bounded (ft : FileTree) (s : Sess) (h : Reach ft s) :
    InvC4 ft s := by
  induction h with
  | init => exact ⟨fun n hn => (nomatch hn), fun r hr => (nomatch hr)⟩
  | step ev fuel hr ih => exact processMessage_InvC4 fuel ft ev _ ih

/-- C4 witness: the invariant instantiated after one processed event from a
fresh session on a concrete graph. -/
theorem c4_counters_bounded_witness :
    InvC4 ftC3 (processMessage 9 ftC3 evHi Sess.fresh).sess :=
  c4_counters_bounded ftC3 _ (Reach.step evHi 9 Reach.init)


/-- C1 counterexample: with the awaiting marker clear and the email question
`q1` pending (`asked` set), the claim routes the raw input `"help"` to the
question validator (an invalid email, so `retries` would become 1 and a
re-prompt would be sent).  The code instead consults the global button scan
between the two checks: it matches button `Help` of the unrelated node `b1`,
jumps to `m1`, sends `m1`'s message, and never touches the validator
(`retries` stays absent, `asked` stays set). -/
theorem c1_counterexample :
    processMessage 10 ftC1 ⟨some "help", none⟩ sC1 =
      ⟨⟨none, none, none, true, none, []⟩, [Effect.sendMsg "FromButtons"], none⟩ := by
  decide

/-- C3: a reachable-state trace violating the claimed mutual exclusion.
From a fresh session, event 1 starts the flow and leaves the `q1` question
pending (`asked` set); event 2 matches the global button `support`, whose
jump clears `awaitingButtonResponse` and `buttonInvalidCount` but not
`asked`, and lands on the buttons node `b2`, which sets the awaiting
marker — so both pending-input markers are set at once. -/
theorem c3_markers_both_set :
    (processMessage 9 ftC3 ⟨some "support", none⟩
        (processMessage 9 ftC3 evHi Sess.fresh).sess).sess.awaiting =
      some ("b2", ["x"]) ∧
    (processMessage 9 ftC3 ⟨some "support", none⟩
        (processMessage 9 ftC3 evHi Sess.fresh).sess).sess.asked = true := by
  exact ⟨by decide, by decide⟩

/-- C5 counterexample: the claim says a rejected answer below the maximum
triggers a re-prompt that includes an attempt counter.  The code's re-prompt
is the fixed string `❌ Please provide a valid email.` — identical on the
first and on the second failed attempt — so it carries no attempt counter
(unlike the invalid-button prompt, which does). -/
theorem c5_counterexample :
    (processMessage 5 ftQ ⟨some "notanemail", none⟩ sQ0).out =
      [Effect.sendMsg "❌ Please provide a valid email."] ∧
    (processMessage 5 ftQ ⟨some "notanemail", none⟩ sQ1).out =
      [Effect.sendMsg "❌ Please provide a valid email."] := by
  exact ⟨by decide, by decide⟩

/-- C7 counterexample: executing the `end` node on a session whose awaiting
marker, invalid counter, asked flag and retry counter are all populated
deletes only the position; the claim says all five fields are absent
afterwards, but the other four are still present. -/
theorem c7_counterexample :
    (executeNode 5 ftEnd ⟨some "x", none⟩ "e1" sFull).sess =
      ⟨none, some ("b", ["x"]), some 2, true, some 1, []⟩ := by
  decide

/-- C8 counterexample: on a graph with two `start` nodes the claim requires
a detected configuration error instead of execution; the code silently
executes from the first start node, emitting its successor's message. -/
theorem c8_counterexample :
    processMessage 5 ft2S evHi Sess.fresh =
      ⟨⟨none, none, none, false, none, []⟩, [Effect.sendMsg "Hi M1"], none⟩ := by
  decide

/-- C10: `processMessage` is not total over its public interface.  With
`messageText` absent and only `buttonReplyId` supplied, dispatching a
keywordMatch node dereferences the absent `messageText`
(`context.messageText.toLowerCase()`) and throws, and so does validating a
pending question answer (`messageText.trim()`); both events end in an
escaped `TypeError` rather than any defined classification or error path. -/
theorem c10_missing_messageText_throws :
    (processMessage 5 ftKw evBtnOnly ⟨some "k1", none, none, false, none, []⟩).err =
      some ErrKind.typeError ∧
    (processMessage 5 ftQ evBtnOnly sQ0).err = some ErrKind.typeError := by
  exact ⟨by decide, by decide⟩

/-- On the two-message cycle, dispatch from `m1` or `m2` exhausts every
fuel bound: each dispatch consumes one step and continues synchronously. -/
theorem cyc_exhausts (fuel : Nat) :
    ∀ s : Sess, (executeNode fuel ftCyc evHi "m1" s).err = some ErrKind.fuelOut ∧
      (executeNode fuel ftCyc evHi "m2" s).err = some ErrKind.fuelOut := by
  induction fuel with
  | zero => intro s; exact ⟨rfl, rfl⟩
  | succ n ih =>
    intro s
    constructor
    · have e : executeNode (n + 1) ftCyc evHi "m1" s
          = Outcome.addOut [Effect.sendMsg "A"]
              (executeNode n ftCyc evHi "m2" { s with position := some "m2" }) := rfl
      rw [e, Outcome.addOut_err]
      exact (ih _).2
    · have e : executeNode (n + 1) ftCyc evHi "m2" s
          = Outcome.addOut [Effect.sendMsg "B"]
              (executeNode n ftCyc evHi "m1" { s with position := some "m1" }) := rfl
      rw [e, Outcome.addOut_err]
      exact (ih _).1

/-- C2: the engine has no step budget.  On the graph whose start node leads
into a cycle of two auto-advancing message nodes, processing one inbound
event exhausts every fuel bound: for every step count the source would keep
dispatching (the real code recurses until the JavaScript call stack fails,
rather than detecting and halting the chain at a fixed maximum). -/
theorem c2_no_step_budget (fuel : Nat) :
    (processMessage fuel ftCyc evHi Sess.fresh).err = some ErrKind.fuelOut := by
  cases fuel with
  | zero => rfl
  | succ n =>
    have e : processMessage (n + 1) ftCyc evHi Sess.fresh
        = Outcome.addOut []
            (executeNode n ftCyc evHi "m1" { Sess.fresh with position := some "m1" }) := rfl
    rw [e, Outcome.addOut_err]
    exact (cyc_exhausts n _).1

/-- C1 (amended): the classifier's actual priority order inserts the global
button scan between the awaiting check and the questionPending check.  For
every inbound event: (1) with no awaiting marker the engine runs the
post-awaiting stages; (2) there, a global button match (with a truthy
labeled edge) wins and jumps; (3) only if the scan misses does continuation
run; (4) with the awaiting marker set, an unmatched input goes to the
invalid-button path; (5) inside continuation, a current question node with
`asked` set routes the raw input to the validator stage. -/
theorem c1_routing_order (fuel : Nat) (ft : FileTree) (ev : Event) (s : Sess) :
    (s.awaiting = none → processMessage fuel ft ev s = postAwaiting fuel ft ev s) ∧
    (∀ t, globalScan ft.edges (normInput ev) ft.nodes = some t →
      postAwaiting fuel ft ev s = globalJump fuel ft ev s t) ∧
    (globalScan ft.edges (normInput ev) ft.nodes = none →
      postAwaiting fuel ft ev s = continueStage fuel ft ev s) ∧
    (∀ nid btns, s.awaiting = some (nid, btns) →
      findMatchedLabel btns (normInput ev) = none →
      processMessage fuel ft ev s = invalidButtonStage fuel ft ev s) ∧
    (∀ cid node, truthyOpt s.position = some cid →
      ft.nodes.find? (fun n => n.id == cid) = some node →
      (node.type == "question" && s.asked) = true →
      continueStage fuel ft ev s = answerStage fuel ft ev s node) := by
  refine ⟨?_, ?_, ?_, ?_, ?_⟩
  · intro h
    simp only [processMessage, h]
  · intro t h
    simp only [postAwaiting, h]
  · intro h
    simp only [postAwaiting, h]
  · intro nid btns h1 h2
    simp only [processMessage, h1, h2]
  · intro cid node h1 h2 h3
    simp only [continueStage, h1, dispatchCurrent, h2, h3, if_true]

/-- C1 witness: on the concrete pending-question fixture the awaiting
marker is clear and the global scan matches button `Help`, so the event is
routed to the global jump (consulted before the questionPending check). -/
theorem c1_routing_order_witness :
    sC1.awaiting = none ∧
    processMessage 10 ftC1 ⟨some "help", none⟩ sC1 =
      globalJump 10 ftC1 ⟨some "help", none⟩ sC1 "m1" := by
  have h := c1_routing_order 10 ftC1 ⟨some "help", none⟩ sC1
  exact ⟨rfl, by rw [h.1 rfl, h.2.1 "m1" (by decide)]⟩

/-- C5 (amended): question validation policy, with the re-prompt naming the
expected validation type but carrying no attempt counter.  Under the
routing conditions (no awaiting marker, no global button match, current
node a question with `asked` set, `messageText` present): a rejected answer
below the maximum persists `retries + 1` and sends the fixed re-prompt; a
rejected answer reaching the maximum sends the terminal notice and deletes
position, `asked` and `retries`; a valid answer stores the trimmed input
under the configured property name, clears `asked` and `retries`, and
advances via the default edge. -/
theorem c5_question_policy (fuel : Nat) (ft : FileTree) (ev : Event) (s : Sess)
    (node : Node) (cid : String) (mt : String)
    (hA : s.awaiting = none)
    (hG : globalScan ft.edges (normInput ev) ft.nodes = none)
    (hP : truthyOpt s.position = some cid)
    (hN : ft.nodes.find? (fun n => n.id == cid) = some node)
    (hQ : (node.type == "question" && s.asked) = true)
    (hM : ev.messageText = some mt) :
    (validateAnswer node.validationType (jsTrim mt) = false →
      (s.retries.getD 0 + 1 < node.numberOfRepeats.getD 3 →
        processMessage fuel ft ev s =
          ⟨{ s with retries := some (s.retries.getD 0 + 1) },
           [Effect.sendMsg ("❌ Please provide a valid "
              ++ jsShow node.validationType ++ ".")], none⟩) ∧
      (node.numberOfRepeats.getD 3 ≤ s.retries.getD 0 + 1 →
        processMessage fuel ft ev s =
          ⟨{ s with position := none, asked := false, retries := none },
           [Effect.sendMsg "❌ Too many invalid attempts. Ending flow."], none⟩)) ∧
    (validateAnswer node.validationType (jsTrim mt) = true →
      ∀ t, findNextNode node.id ft.edges none = some t →
        processMessage fuel ft ev s =
          executeNode fuel ft ev t
            { (if jsTruthy node.propertyName then
                 { s with vars := (node.propertyName.getD "", jsTrim mt) :: s.vars }
               else s) with position := some t, asked := false, retries := none }) := by
  have hroute : processMessage fuel ft ev s = answerStage fuel ft ev s node := by
    simp only [processMessage, hA, postAwaiting, hG, continueStage, hP,
      dispatchCurrent, hN, hQ, if_true]
  constructor
  · intro hval
    constructor
    · intro hlt
      rw [hroute]
      simp only [answerStage, hM, hval, Bool.not_false, if_true]
      rw [if_neg (by omega : ¬(node.numberOfRepeats.getD 3 ≤ s.retries.getD 0 + 1))]
    · intro hle
      rw [hroute]
      simp only [answerStage, hM, hval, Bool.not_false, if_true]
      rw [if_pos hle]
  · intro hval t ht
    rw [hroute]
    simp only [answerStage, hM, hval, Bool.not_true, Bool.false_eq_true,
      if_false, ht]

/-- C5 witness: the first invalid answer `notanemail` to the email question
persists `retries = 1` and sends the fixed re-prompt. -/
theorem c5_question_policy_witness :
    validateAnswer qNodeW.validationType (jsTrim "notanemail") = false ∧
    processMessage 5 ftQ ⟨some "notanemail", none⟩ sQ0 =
      ⟨⟨some "q1", none, none, true, some 1, []⟩,
       [Effect.sendMsg "❌ Please provide a valid email."], none⟩ := by
  have h := ((c5_question_policy 5 ftQ ⟨some "notanemail", none⟩ sQ0 qNodeW "q1"
      "notanemail" rfl (by decide) (by decide) (by decide) (by decide) rfl).1
      (by decide)).1 (by decide)
  exact ⟨by decide, h.trans (by decide)⟩

/-- C6: invalid button-reply policy.  While awaiting, an event matching none
of the awaited buttons increments the invalid counter.  Below 3 the counter
is persisted, the retry prompt naming the attempt count (`(n/3 attempts
used)`) is sent, and the awaiting marker is left unchanged.  At 3 the
terminal notice is sent, position, awaiting marker and counter are deleted,
and the graph's `end` node — when one exists — is executed. -/
theorem c6_invalid_button_policy (fuel : Nat) (ft : FileTree) (ev : Event)
    (s : Sess) (nid : String) (btns : List String)
    (hA : s.awaiting = some (nid, btns))
    (hm : findMatchedLabel btns (normInput ev) = none) :
    (s.invalidCount.getD 0 + 1 < 3 →
      processMessage fuel ft ev s =
        ⟨{ s with invalidCount := some (s.invalidCount.getD 0 + 1) },
         [Effect.sendMsg ("Invalid response. Please choose one of the buttons. ("
            ++ toString (s.invalidCount.getD 0 + 1) ++ "/3 attempts used)")],
         none⟩) ∧
    (3 ≤ s.invalidCount.getD 0 + 1 →
      (∀ en, ft.nodes.find? (fun n => n.type == "end") = some en →
        processMessage fuel ft ev s =
          Outcome.addOut
            [Effect.sendMsg ("You\x27ve entered too many invalid responses (3/3).\nEnding this session. Please try again later if needed.")]
            (executeNode fuel ft ev en.id
              { s with position := none, awaiting := none, invalidCount := none })) ∧
      (ft.nodes.find? (fun n => n.type == "end") = none →
        processMessage fuel ft ev s =
          ⟨{ s with position := none, awaiting := none, invalidCount := none },
           [Effect.sendMsg ("You\x27ve entered too many invalid responses (3/3).\nEnding this session. Please try again later if needed.")],
           none⟩)) := by
  have hroute : processMessage fuel ft ev s = invalidButtonStage fuel ft ev s := by
    simp only [processMessage, hA, hm]
  refine ⟨?_, ?_⟩
  · intro hlt
    rw [hroute]
    simp only [invalidButtonStage]
    rw [if_neg (by omega : ¬(3 ≤ s.invalidCount.getD 0 + 1))]
  · intro hge
    constructor
    · intro en hen
      rw [hroute]
      simp only [invalidButtonStage]
      rw [if_pos hge, hen]
    · intro hnone
      rw [hroute]
      simp only [invalidButtonStage]
      rw [if_pos hge, hnone]

/-- C6 witness: the first unrecognized reply `bogus` to the yes/no buttons
node stores counter 1, sends the `(1/3 attempts used)` prompt and leaves the
awaiting marker in place. -/
theorem c6_invalid_button_policy_witness :
    sB0.awaiting = some ("b1", ["yes", "no"]) ∧
    processMessage 5 ftB ⟨some "bogus", none⟩ sB0 =
      ⟨⟨some "b1", some ("b1", ["yes", "no"]), some 1, false, none, []⟩,
       [Effect.sendMsg "Invalid response. Please choose one of the buttons. (1/3 attempts used)"],
       none⟩ := by
  have h := (c6_invalid_button_policy 5 ftB ⟨some "bogus", none⟩ sB0 "b1"
      ["yes", "no"] rfl (by decide)).1 (by decide)
  exact ⟨rfl, h.trans (by decide)⟩

/-- C7 (amended): executing an `end` node deletes only the stored position
(after its optional quickReply send); the awaiting marker, the invalid
counter, the asked flag and the retries counter are left unchanged, to lapse
only via the store's expiration. -/
theorem c7_end_node_deletes_position (fuel : Nat) (ft : FileTree) (ev : Event)
    (s : Sess) (nid : String) (node : Node)
    (hN : ft.nodes.find? (fun n => n.id == nid) = some node)
    (hT : node.type = "end") :
    executeNode (fuel + 1) ft ev nid s =
      ⟨{ s with position := none }, quickReplyOut node, none⟩ := by
  have e : executeNode (fuel + 1) ft ev nid s
      = execBody (executeNode fuel ft ev) ft ev nid s := rfl
  rw [e]
  simp only [execBody, hN, hT, beq_iff_eq]
  rw [if_neg (show ¬("end" = "start") by decide),
      if_neg (show ¬("end" = "message") by decide),
      if_neg (show ¬("end" = "keywordMatch") by decide),
      if_neg (show ¬("end" = "buttons") by decide),
      if_neg (show ¬("end" = "question") by decide),
      if_neg (show ¬("end" = "api") by decide),
      if_pos trivial]

/-- C7 witness: the end-node equation instantiated on the concrete fixture
(no quickReply, all other session fields populated and preserved). -/
theorem c7_end_node_deletes_position_witness :
    ftEnd.nodes.find? (fun n => n.id == "e1") = some endNodeW ∧
    executeNode 5 ftEnd ⟨some "x", none⟩ "e1" sFull =
      ⟨⟨none, some ("b", ["x"]), some 2, true, some 1, []⟩, [], none⟩ := by
  have h := c7_end_node_deletes_position 4 ftEnd ⟨some "x", none⟩ sFull "e1"
    endNodeW (by decide) rfl
  exact ⟨by decide, h.trans (by decide)⟩

/-- C8 (amended): with no stored position (and no awaiting marker or global
button match), the engine resolves the start node with a first-match scan:
zero `start` nodes is detected (logged, nothing executed, state unchanged);
otherwise — including a graph with several `start` nodes — execution begins
at the first node of type `start` in node-list order, with no configuration
error raised for duplicates. -/
theorem c8_start_resolution (fuel : Nat) (ft : FileTree) (ev : Event)
    (s : Sess) (hA : s.awaiting = none)
    (hG : globalScan ft.edges (normInput ev) ft.nodes = none)
    (hP : truthyOpt s.position = none) :
    (ft.nodes.find? (fun n => n.type == "start") = none →
      processMessage fuel ft ev s = ⟨s, [], none⟩) ∧
    (∀ st, ft.nodes.find? (fun n => n.type == "start") = some st →
      processMessage fuel ft ev s = dispatchCurrent fuel ft ev s st.id) := by
  have hroute : processMessage fuel ft ev s = continueStage fuel ft ev s := by
    simp only [processMessage, hA, postAwaiting, hG]
  constructor
  · intro h0
    rw [hroute]
    simp only [continueStage, hP, h0]
  · intro st hst
    rw [hroute]
    simp only [continueStage, hP, hst]

/-- C8 witness: on the two-start graph the scan returns the first start
node `s1`, and the event is dispatched from it. -/
theorem c8_start_resolution_witness :
    ft2S.nodes.find? (fun n => n.type == "start") =
      some { id := "s1", type := "start" } ∧
    processMessage 5 ft2S evHi Sess.fresh =
      dispatchCurrent 5 ft2S evHi Sess.fresh "s1" := by
  have h := (c8_start_resolution 5 ft2S evHi Sess.fresh rfl (by decide) rfl).2
    { id := "s1", type := "start" } (by decide)
  exact ⟨by decide, h⟩

/-- C9: an api node whose URL has a `{{variableName}}` placeholder with no
truthy stored binding issues no HTTP request at all (the substitution loop
throws before the request is built — the effects of the node itself contain
no `httpRequest`): the user receives the generic fallback message, and
execution still advances past the api node through its default edge. -/
theorem c9_api_missing_variable (fuel : Nat) (ft : FileTree) (ev : Event)
    (s : Sess) (nid : String) (node : Node) (vn : String) (t : String)
    (hN : ft.nodes.find? (fun n => n.id == nid) = some node)
    (hT : node.type = "api")
    (hMe : jsTruthy node.method = true)
    (hU : jsTruthy node.url = true)
    (hvn : vn ∈ extractVars (node.url.getD ""))
    (hmiss : jsTruthy (lookupVar s.vars vn) = false)
    (hEdge : findNextNode node.id ft.edges none = some t) :
    executeNode (fuel + 1) ft ev nid s =
      advanceWith (executeNode fuel ft ev) s node
        (quickReplyOut node
          ++ [Effect.sendMsg "Failed to fetch data. Please try again later."])
        (some t) ∧
    (∀ u, Effect.httpRequest u ∉
      quickReplyOut node
        ++ [Effect.sendMsg "Failed to fetch data. Please try again later."]) := by
  have hsub : substVars s.vars (node.url.getD "") = none :=
    substVarsGo_missing s.vars vn hmiss _ _ hvn
  constructor
  · have e : executeNode (fuel + 1) ft ev nid s
        = execBody (executeNode fuel ft ev) ft ev nid s := rfl
    rw [e]
    simp only [execBody, hN, hT, beq_iff_eq]
    rw [if_neg (show ¬("api" = "start") by decide),
        if_neg (show ¬("api" = "message") by decide),
        if_neg (show ¬("api" = "keywordMatch") by decide),
        if_neg (show ¬("api" = "buttons") by decide),
        if_neg (show ¬("api" = "question") by decide),
        if_pos trivial]
    rw [hMe, hU]
    rw [if_neg (show ¬((!(true && true)) = true) by decide)]
    rw [hsub, hEdge]
  · intro u
    simp only [quickReplyOut]
    split <;> simp

/-- C9 witness: on the concrete api fixture with no binding for `orderId`,
the node's effects are exactly the fallback message (no `httpRequest`), and
the engine advances to the message node `m2` behind the default edge. -/
theorem c9_api_missing_variable_witness :
    "orderId" ∈ extractVars (apiNodeW.url.getD "") ∧
    executeNode 5 ftApi ⟨some "x", none⟩ "a1" Sess.fresh =
      advanceWith (executeNode 4 ftApi ⟨some "x", none⟩) Sess.fresh apiNodeW
        [Effect.sendMsg "Failed to fetch data. Please try again later."] (some "m2") := by
  have h := (c9_api_missing_variable 4 ftApi ⟨some "x", none⟩ Sess.fresh "a1"
    apiNodeW "orderId" "m2" (by decide) rfl (by decide) (by decide) (by decide)
    (by decide) (by decide)).1
  exact ⟨by decide, h⟩
